import Mathlib

/-!
Verification development for the sshcode session orchestration program
(`sshcode.go`).  The Go source is shallowly embedded: pure string
manipulation becomes Lean functions on `String` / `List Char`, external
effects (the gcloud helper, TCP binds, the rsync transport, the tunnel
child process, HTTP probe attempts, OS signals, the browser launcher)
become explicit environment records whose fields give the result each
external call would produce, and fallible Go functions return `Except`.
-/

namespace Sshcode

/-! ### Go `strings` package helpers (shallow embedding)

These mirror the exact Go standard-library behaviour used by the source:
`strings.Split` with a one-character separator, `strings.Join`,
`strings.TrimSpace` (restricted to ASCII white space, the only kind the
program ever meets), `strings.HasPrefix`. -/

def isSpaceGo (c : Char) : Bool :=
  c == ' ' || c == '\t' || c == '\n' || c == '\r' || c == '\x0b' || c == '\x0c'

def trimGo (s : String) : String :=
  String.mk (((s.data.dropWhile isSpaceGo).reverse.dropWhile isSpaceGo).reverse)

def splitCharAux (sep : Char) : List Char → List Char → List (List Char)
  | [], acc => [acc.reverse]
  | c :: cs, acc =>
    if c == sep then acc.reverse :: splitCharAux sep cs []
    else splitCharAux sep cs (c :: acc)

/-- Go `strings.Split(s, sep)` for a one-character separator. -/
def splitGo (s : String) (sep : Char) : List String :=
  (splitCharAux sep s.data []).map String.mk

/-- Go `strings.Join(l, sep)`. -/
def joinGo (sep : String) : List String → String
  | [] => ""
  | [x] => x
  | x :: xs => x ++ sep ++ joinGo sep xs

/-- Go `strings.HasPrefix` on character lists. -/
def goHasPre : List Char → List Char → Bool
  | [], _ => true
  | _ :: _, [] => false
  | p :: ps, c :: cs => p == c && goHasPre ps cs

def containsChar (l : List Char) (c : Char) : Bool :=
  l.any (fun x => x == c)

def lastIdxOfAux (c : Char) : List Char → Nat → Option Nat → Option Nat
  | [], _, best => best
  | x :: xs, i, best =>
    lastIdxOfAux c xs (i + 1) (if x == c then some i else best)

/-- Index of the last occurrence of `c` (Go `last(s, c)`, with `none` for -1). -/
def lastIdxOf (l : List Char) (c : Char) : Option Nat :=
  lastIdxOfAux c l 0 none

/-- Index of the first occurrence of `c` (Go `byteIndex`), `none` for -1. -/
def firstIdxOf (l : List Char) (c : Char) : Option Nat :=
  List.findIdx? (fun x => x == c) l

/-! ### Go `net.SplitHostPort` and `net.JoinHostPort`

Transcribed from the Go standard library (`net/ipsock.go`), which
`parseBindAddr` calls.  Errors carry the `AddrError.Err` message. -/

def splitHostPort (hostport : String) : Except String (String × String) :=
  let l := hostport.data
  match lastIdxOf l ':' with
  | none => .error "missing port in address"
  | some i =>
    if l.headD ' ' == '[' then
      match firstIdxOf l ']' with
      | none => .error "missing right bracket in address"
      | some e =>
        if e + 1 == l.length then .error "missing port in address"
        else if e + 1 == i then
          -- host = hostport[1:e]; j, k = 1, e+1
          if (firstIdxOf (l.drop 1) '[').isSome then
            .error "unexpected left bracket in address"
          else if (firstIdxOf (l.drop (e + 1)) ']').isSome then
            .error "unexpected right bracket in address"
          else
            .ok (String.mk ((l.drop 1).take (e - 1)), String.mk (l.drop (i + 1)))
        else if l.getD (e + 1) ' ' == ':' then .error "too many colons in address"
        else .error "missing port in address"
    else
      let host := l.take i
      if containsChar host ':' then .error "too many colons in address"
      else if (firstIdxOf l '[').isSome then
        .error "unexpected left bracket in address"
      else if (firstIdxOf l ']').isSome then
        .error "unexpected right bracket in address"
      else
        .ok (String.mk host, String.mk (l.drop (i + 1)))

def joinHostPort (host port : String) : String :=
  if containsChar host.data ':' then "[" ++ host ++ "]:" ++ port
  else host ++ ":" ++ port

/-! ### Go `net.ParseIP`

Transcribed from the Go standard library (`net/ip.go`, the version the
program was built against): `dtoi`, `xtoi`, `parseIPv4`, `parseIPv6`
(with zone stripping) and the leading-byte dispatch of `ParseIP`.
A parsed address is returned as its list of bytes (4 for IPv4, 16 for
IPv6); the program only ever tests the result against nil. -/

/-- Go `net.big` (0xFFFFFF), the overflow cutoff of `dtoi` and `xtoi`. -/
def ipBig : Nat := 0xFFFFFF

def dtoiGo : List Char → Nat → Nat → Option (Nat × Nat)
  | [], i, n => if i = 0 then none else some (n, i)
  | c :: cs, i, n =>
    if '0'.toNat ≤ c.toNat ∧ c.toNat ≤ '9'.toNat then
      let n1 := n * 10 + (c.toNat - '0'.toNat)
      if n1 ≥ ipBig then none
      else dtoiGo cs (i + 1) n1
    else if i = 0 then none else some (n, i)

/-- Go `dtoi`: leading decimal number, with its length; `none` when `!ok`. -/
def dtoi (s : List Char) : Option (Nat × Nat) :=
  dtoiGo s 0 0

def hexVal (c : Char) : Option Nat :=
  if '0'.toNat ≤ c.toNat ∧ c.toNat ≤ '9'.toNat then some (c.toNat - '0'.toNat)
  else if 'a'.toNat ≤ c.toNat ∧ c.toNat ≤ 'f'.toNat then some (c.toNat - 'a'.toNat + 10)
  else if 'A'.toNat ≤ c.toNat ∧ c.toNat ≤ 'F'.toNat then some (c.toNat - 'A'.toNat + 10)
  else none

def xtoiGo : List Char → Nat → Nat → Option (Nat × Nat)
  | [], i, n => if i = 0 then none else some (n, i)
  | c :: cs, i, n =>
    match hexVal c with
    | some d =>
      let n1 := n * 16 + d
      if n1 ≥ ipBig then none
      else xtoiGo cs (i + 1) n1
    | none => if i = 0 then none else some (n, i)

/-- Go `xtoi`: leading hexadecimal number, with its length; `none` when `!ok`. -/
def xtoi (s : List Char) : Option (Nat × Nat) :=
  xtoiGo s 0 0

/-- One dotted-decimal field: `dtoi` plus the `n > 0xFF` bound. -/
def parseIPv4Field (s : List Char) : Option (Nat × List Char) :=
  match dtoi s with
  | none => none
  | some (n, c) => if n > 0xFF then none else some (n, s.drop c)

def parseIPv4Rest : Nat → List Char → List Nat → Option (List Nat)
  | 0, s, acc => if s = [] then some acc.reverse else none
  | k + 1, s, acc =>
    match s with
    | '.' :: s1 =>
      match parseIPv4Field s1 with
      | none => none
      | some (n, s2) => parseIPv4Rest k s2 (n :: acc)
    | _ => none

/-- Go `parseIPv4`: four dot-separated decimal fields, each at most 255. -/
def parseIPv4Go (s : List Char) : Option (List Nat) :=
  if s = [] then none
  else
    match parseIPv4Field s with
    | none => none
    | some (n, s1) => parseIPv4Rest 3 s1 [n]

/-- End of the `parseIPv6` loop: the entire string must have been used,
an ellipsis expands to the missing zero bytes, and a full 16 bytes with
an ellipsis is rejected. -/
def v6finish (bytes : List Nat) (ellipsis : Option Nat) : Option (List Nat) :=
  if bytes.length < 16 then
    match ellipsis with
    | none => none
    | some e => some (bytes.take e ++ List.replicate (16 - bytes.length) 0 ++ bytes.drop e)
  else
    match ellipsis with
    | some _ => none
    | none => some bytes

def v6loop : Nat → List Char → Option Nat → List Nat → Option (List Nat)
  | 0, s, ell, bytes => if s ≠ [] then none else v6finish bytes ell
  | fuel + 1, s, ell, bytes =>
    match xtoi s with
    | none => none
    | some (n, c) =>
      if n > 0xFFFF then none
      else if c < s.length ∧ s.getD c ' ' == '.' then
        -- trailing embedded IPv4 address
        if ell = none ∧ bytes.length ≠ 16 - 4 then none
        else if bytes.length + 4 > 16 then none
        else
          match parseIPv4Go s with
          | none => none
          | some ip4 => v6finish (bytes ++ ip4) ell
      else
        let bytes := bytes ++ [n / 256, n % 256]
        let s := s.drop c
        if s = [] then v6finish bytes ell
        else
          match s with
          | ':' :: s1 =>
            match s1 with
            | [] => none
            | ':' :: s2 =>
              if ell ≠ none then none
              else if s2 = [] then v6finish bytes (some bytes.length)
              else v6loop fuel s2 (some bytes.length) bytes
            | _ => v6loop fuel s1 ell bytes
          | _ => none

/-- Go `parseIPv6` (16 bytes, or `none`). -/
def parseIPv6Go (s : List Char) : Option (List Nat) :=
  match s with
  | ':' :: ':' :: rest =>
    if rest = [] then some (List.replicate 16 0)
    else v6loop 8 rest (some 0) []
  | _ => v6loop 8 s none []

/-- Go `splitHostZone`: strip an IPv6 zone after the last percent sign
(only when the percent sign is not the first byte). -/
def splitHostZone (l : List Char) : List Char :=
  match lastIdxOf l '%' with
  | some i => if 0 < i then l.take i else l
  | none => l

/-- Go `net.ParseIP`: dispatch on the first dot or colon. -/
def parseIPDispatch (orig : List Char) : List Char → Option (List Nat)
  | [] => none
  | c :: cs =>
    if c == '.' then parseIPv4Go orig
    else if c == ':' then parseIPv6Go (splitHostZone orig)
    else parseIPDispatch orig cs

def parseIP (s : String) : Option (List Nat) :=
  parseIPDispatch s.data s.data

/-! ### PortAllocator (`randomPort`, sshcode.go lines 247-264)

`rand.Intn(maxPort-minPort+1)` is modelled by reducing an arbitrary
entropy value `rands i` modulo the range size, which is exactly the
range contract of `Intn`; `net.Listen` success on a port is modelled by
the environment predicate `bindOk`. -/

structure PortEnv where
  rands : Nat → Nat
  bindOk : Nat → Bool

def minPort : Nat := 1024
def maxPort : Nat := 65535
def maxTries : Nat := 10

/-- The port picked on try `i`: `rand.Intn(maxPort-minPort+1) + minPort`. -/
def pickPort (penv : PortEnv) (i : Nat) : Nat :=
  penv.rands i % (maxPort - minPort + 1) + minPort

def randomPortGo (penv : PortEnv) : Nat → Nat → Except String String
  | 0, _ => .error ("max number of tries exceeded: " ++ toString maxTries)
  | fuel + 1, i =>
    let port := pickPort penv i
    if penv.bindOk port then .ok (toString port)
    else randomPortGo penv fuel (i + 1)

/-- `randomPort()`: up to `maxTries` tries, each binding a random port. -/
def randomPort (penv : PortEnv) : Except String String :=
  randomPortGo penv maxTries 0

/-! ### `parseBindAddr` (sshcode.go lines 170-192) -/

def parseBindAddr (penv : PortEnv) (bindAddr : String) : Except String String :=
  let bindAddr := if bindAddr = "" then ":" else bindAddr
  match splitHostPort bindAddr with
  | .error e => .error e
  | .ok (host, port) =>
    let host := if host = "" then "127.0.0.1" else host
    match (if port = "" then randomPort penv else .ok port) with
    | .error e => .error e
    | .ok port => .ok (joinHostPort host port)

/-! ### HostResolver (`parseHost` / `parseGCPSSHCmd`, sshcode.go lines 379-427)

The gcloud helper is an external command; its result is supplied as an
`Except String String`: `.error e` when the command failed (`e` the
diagnostic the Go code wraps), `.ok out` its combined output. -/

/-- The whitespace tokenisation `strings.Split(out, " ")` of the helper
output. -/
def gcpToks (out : String) : List String :=
  splitGo out ' '

/-- The IP extraction of `parseGCPSSHCmd`: take the final token, split it
on the at sign, use field 1 when present (`user@ip` form) and field 0
otherwise, then `strings.TrimSpace`. -/
def gcpExtractIP (out : String) : String :=
  let userIP := (gcpToks out).getLastD ""
  let atToks := splitGo userIP '@'
  if atToks.length < 2 then trimGo (atToks.headD "")
  else trimGo (atToks.getD 1 "")

def parseGCPSSHCmd (gcloud : Except String String) : Except String (String × String) :=
  match gcloud with
  | .error e => .error e
  | .ok out =>
    let toks := gcpToks out
    if toks.length < 2 then .error ("unexpected output for gcloud command: " ++ out)
    else
      let sshFlags := joinGo " " ((toks.drop 1).dropLast)
      let ip := gcpExtractIP out
      if (parseIP ip).isNone then .error ("parsed invalid ip address " ++ ip)
      else .ok (ip, sshFlags)

/-- `parseHost`: trim, then delegate to the GCP resolver on a `gcp:`
prefix, otherwise return the host unchanged with empty extra flags. -/
def parseHost (gcloud : Except String String) (host : String) : Except String (String × String) :=
  let host := trimGo host
  if goHasPre "gcp:".data host.data then parseGCPSSHCmd gcloud
  else .ok (host, "")

/-- Modelled from the spec (claim C3 wording only, for comparison with
`gcpExtractIP`): the substring of the final whitespace-separated token
after the LAST at sign. -/
def specAddrAfterLastAt (out : String) : String :=
  let userIP := (gcpToks out).getLastD ""
  (splitGo userIP '@').getLastD ""

/-! ### SyncCoordinator argument building
(`rsync` / `syncUserSettings` / `syncExtensions`, sshcode.go lines 266-342)

`configDir()` / `extensionsDir()` live outside the embedded source file,
so the local directories are parameters; the remote directories and the
exclusion lists are the constants of the source. -/

def remoteSettingsDir : String := "~/.local/share/code-server/User/"
def remoteExtensionsDir : String := "~/.local/share/code-server/extensions/"

/-- The exclusion list passed by `syncUserSettings` to `rsync`. -/
def settingsExcludes : List String := ["workspaceStorage", "logs", "CachedData"]

/-- The argument list of the `rsync` invocation built by `rsync(src, dest,
sshFlags, excludePaths...)`. -/
def rsyncArgs (src dest sshFlags : String) (excludePaths : List String) : List String :=
  (excludePaths.map (fun p => "--exclude=" ++ p)) ++
    ["-azvr", "-e", "ssh " ++ sshFlags, "-u", "--times", "--delete",
     "--copy-unsafe-links", src, dest]

/-- Source and destination chosen by `syncUserSettings`: local config dir
(with a trailing slash appended) pushed to `host:remoteSettingsDir`, the
pair swapped when `back`. -/
def settingsSrcDest (localConfDir host : String) (back : Bool) : String × String :=
  let src := localConfDir ++ "/"
  let dest := host ++ ":" ++ remoteSettingsDir
  if back then (dest, src) else (src, dest)

def syncUserSettingsArgs (localConfDir sshFlags host : String) (back : Bool) : List String :=
  let sd := settingsSrcDest localConfDir host back
  rsyncArgs sd.1 sd.2 sshFlags settingsExcludes

def extensionsSrcDest (localExtDir host : String) (back : Bool) : String × String :=
  let src := localExtDir ++ "/"
  let dest := host ++ ":" ++ remoteExtensionsDir
  if back then (dest, src) else (src, dest)

def syncExtensionsArgs (localExtDir sshFlags host : String) (back : Bool) : List String :=
  let sd := extensionsSrcDest localExtDir host back
  rsyncArgs sd.1 sd.2 sshFlags []

def hasColon (s : String) : Bool :=
  containsChar s.data ':'

def endsWithSep (s : String) : Bool :=
  s.data.getLastD ' ' == '/'

/-! ### ReadinessProbe (sshcode.go lines 111-129)

The probe loop checks the 15-second context before every attempt and
issues a 3-second-timeout GET; time is modelled by supplying the finite
sequence of attempt outcomes that occur before the deadline expires —
`none` is a transport error (retried), `some code` an HTTP response with
that status code, and exhausting the list is the context deadline. -/

def ctxTimeoutSeconds : Nat := 15
def clientTimeoutSeconds : Nat := 3

def waitCodeServer : List (Option Nat) → Except String Unit
  | [] => .error "code-server did not start in time"
  | none :: rest => waitCodeServer rest
  | some _ :: _ => .ok ()

/-! ### `openBrowser` (sshcode.go lines 194-233)

Local browser discovery and launch.  `commandExists` / `pathExists` and
the two possible launch errors (`openCmd.Start()` and
`browser.OpenURL`) come from the environment.  The function returns the
list of logged error lines: it has no error channel, exactly like the Go
function, whose return type is empty. -/

def macChromePath : String :=
  "/Applications/Google Chrome.app/Contents/MacOS/Google Chrome"
def wslChromePath : String :=
  "/mnt/c/Program Files (x86)/Google/Chrome/Application/chrome.exe"

structure BrowserEnv where
  cmdExists : String → Bool
  macChrome : Bool
  wslChrome : Bool
  startErr : Option String
  openURLErr : Option String

def chromeOptions (url : String) : List String :=
  ["--app=" ++ url, "--disable-extensions", "--disable-plugins", "--incognito"]

/-- The command chosen by the `switch` in `openBrowser`; `none` means the
default branch (`browser.OpenURL`). -/
def selectBrowserCmd (b : BrowserEnv) (url : String) : Option (String × List String) :=
  if b.cmdExists "google-chrome" then some ("google-chrome", chromeOptions url)
  else if b.cmdExists "google-chrome-stable" then some ("google-chrome-stable", chromeOptions url)
  else if b.cmdExists "chromium" then some ("chromium", chromeOptions url)
  else if b.cmdExists "chromium-browser" then some ("chromium-browser", chromeOptions url)
  else if b.macChrome then some (macChromePath, chromeOptions url)
  else if b.wslChrome then some (wslChromePath, chromeOptions url)
  else none

def openBrowser (b : BrowserEnv) (url : String) : List String :=
  match selectBrowserCmd b url with
  | some _ =>
    match b.startErr with
    | some e => ["failed to open browser: " ++ e]
    | none => []
  | none =>
    match b.openURLErr with
    | some e => ["failed to open browser: " ++ e]
    | none => []

/-! ### SessionController (`sshCode`, sshcode.go lines 33-168)

The session is a sequential composition of stages; each external effect
is resolved by the environment.  The returned trace records, in order,
every external stage the session performed; the sync events carry the
`back` flag of the corresponding Go call (`back = false` is the push
direction local-to-remote, `back = true` the pull direction). -/

structure options where
  skipSync : Bool
  syncBack : Bool
  noOpen : Bool
  bindAddr : String
  remotePort : String
  sshFlags : String

inductive Sig where
  | tunnelEnded
  | interrupted
deriving DecidableEq

inductive Event where
  | bootstrap
  | syncSettings (back : Bool)
  | syncExtensions (back : Bool)
  | tunnelStart
  | probe
  | openedBrowser (logs : List String)
  | running (sig : Sig)
deriving DecidableEq

structure SSHEnv where
  gcloud : Except String String
  bindPorts : PortEnv
  remotePorts : PortEnv
  bootstrapErr : Option String
  settingsSync : Bool → Option String
  extSync : Bool → Option String
  tunnelStartErr : Option String
  probeAttempts : List (Option Nat)
  browser : BrowserEnv
  sig : Sig

/-- Sequence two staged computations, keeping the first failure and
concatenating the event traces. -/
def seqE (a b : Except String Unit × List Event) : Except String Unit × List Event :=
  match a.1 with
  | .error e => a
  | .ok _ => (b.1, a.2 ++ b.2)

/-- Lines 74-90: `if !o.skipSync` run settings sync then extensions sync,
push direction, returning on the first failure. -/
def syncInPhase (env : SSHEnv) (o : options) : Except String Unit × List Event :=
  if o.skipSync then (.ok (), [])
  else
    match env.settingsSync false with
    | some e => (.error ("failed to sync settings: " ++ e), [.syncSettings false])
    | none =>
      match env.extSync false with
      | some e => (.error ("failed to sync extensions: " ++ e),
                   [.syncSettings false, .syncExtensions false])
      | none => (.ok (), [.syncSettings false, .syncExtensions false])

/-- Lines 150-167: `if !o.syncBack || o.skipSync` shut down with no sync,
otherwise extensions sync then settings sync, pull direction, returning
on the first failure. -/
def syncBackPhase (env : SSHEnv) (o : options) : Except String Unit × List Event :=
  if !o.syncBack || o.skipSync then (.ok (), [])
  else
    match env.extSync true with
    | some e => (.error ("failed to sync extensions back: " ++ e), [.syncExtensions true])
    | none =>
      match env.settingsSync true with
      | some e => (.error ("failed to sync user settings settings back: " ++ e),
                   [.syncExtensions true, .syncSettings true])
      | none => (.ok (), [.syncExtensions true, .syncSettings true])

/-- Lines 96-148: start the tunnel child process, probe until ready, open
the browser unless suppressed (its outcome is recorded but never
consulted), then block on the first of tunnel exit and interrupt, then
hand over to the sync-back decision. -/
def runPhase (env : SSHEnv) (o : options) : Except String Unit × List Event :=
  match env.tunnelStartErr with
  | some e => (.error ("failed to start code-server: " ++ e), [.tunnelStart])
  | none =>
    match waitCodeServer env.probeAttempts with
    | .error e => (.error e, [.tunnelStart, .probe])
    | .ok _ =>
      let brEv : List Event :=
        if o.noOpen then []
        else [Event.openedBrowser (openBrowser env.browser ("http://" ++ o.bindAddr))]
      let ev := [Event.tunnelStart, Event.probe] ++ brEv ++ [Event.running env.sig]
      seqE (.ok (), ev) (syncBackPhase env o)

/-- `sshCode(host, dir, o)`: the full session controller. -/
def sshCode (env : SSHEnv) (host dir : String) (o : options) :
    Except String Unit × List Event :=
  match parseHost env.gcloud host with
  | .error e => (.error ("failed to parse host IP: " ++ e), [])
  | .ok (host1, extraSSHFlags) =>
    let newFlags := if extraSSHFlags ≠ "" then joinGo " " [extraSSHFlags, o.sshFlags]
      else o.sshFlags
    let o := { o with sshFlags := newFlags }
    match parseBindAddr env.bindPorts o.bindAddr with
    | .error e => (.error ("failed to parse bind address: " ++ e), [])
    | .ok ba =>
      let o := { o with bindAddr := ba }
      match (if o.remotePort = "" then randomPort env.remotePorts else .ok o.remotePort) with
      | .error e => (.error ("failed to find available remote port: " ++ e), [])
      | .ok rp =>
        let o := { o with remotePort := rp }
        match env.bootstrapErr with
        | some e => (.error ("failed to update code-server: " ++ e), [.bootstrap])
        | none =>
          seqE (.ok (), [.bootstrap]) (seqE (syncInPhase env o) (runPhase env o))

def isSyncEvent : Event → Bool
  | .syncSettings _ => true
  | .syncExtensions _ => true
  | _ => false

/-- Erase the browser log payload (used to compare traces across browser
environments). -/
def scrubEv : Event → Event
  | .openedBrowser _ => .openedBrowser []
  | e => e

/-! ### Concrete environments used by witnesses -/

/-- A browser environment with no local Chrome and a working fallback. -/
def benvW : BrowserEnv := ⟨fun _ => false, false, false, none, none⟩

/-- A browser environment whose chosen command fails to start. -/
def benvFail : BrowserEnv := ⟨fun _ => true, false, false, some "boom", none⟩

/-- A fully successful session environment: a plain host, free ports,
all external calls succeeding, the second probe attempt answering, the
tunnel ending the session. -/
def envW : SSHEnv :=
  { gcloud := .error "unused", bindPorts := ⟨fun _ => 976, fun _ => true⟩,
    remotePorts := ⟨fun _ => 976, fun _ => true⟩, bootstrapErr := none,
    settingsSync := fun _ => none, extSync := fun _ => none,
    tunnelStartErr := none, probeAttempts := [none, some 200],
    browser := benvW, sig := .tunnelEnded }

/-- Options with sync enabled, sync-back requested, browser suppressed. -/
def oW : options := ⟨false, true, true, "127.0.0.1:8080", "9999", ""⟩

/-! ### Helper lemmas -/

lemma toDigitsCore_length_le (b : Nat) : ∀ (fuel n : Nat) (ds : List Char),
    ds.length ≤ (Nat.toDigitsCore b fuel n ds).length := by
  intro fuel
  induction fuel with
  | zero => intro n ds; simp [Nat.toDigitsCore]
  | succ fuel ih =>
    intro n ds
    simp only [Nat.toDigitsCore]
    split
    · simp
    · exact le_trans (by simp) (ih (n / b) (Nat.digitChar (n % b) :: ds))

lemma toDigits_ne_nil (b n : Nat) : Nat.toDigits b n ≠ [] := by
  have h1 : 1 ≤ (Nat.toDigits b n).length := by
    rw [Nat.toDigits]
    simp only [Nat.toDigitsCore]
    split
    · simp
    · exact le_trans (by simp) (toDigitsCore_length_le b n (n / b) [Nat.digitChar (n % b)])
  intro hc
  rw [hc] at h1
  simp at h1

lemma toString_nat_ne_empty (n : Nat) : toString n ≠ "" := by
  intro h
  have hd : (toString n).data = ("" : String).data := by rw [h]
  have : toString n = Nat.repr n := rfl
  rw [this] at hd
  have : Nat.repr n = String.mk (Nat.toDigits 10 n) := rfl
  rw [this] at hd
  exact toDigits_ne_nil 10 n hd

/-! ### Claim C4 — the readiness probe -/

lemma waitCodeServer_error_iff (attempts : List (Option Nat)) :
    waitCodeServer attempts = .error "code-server did not start in time" ↔
      ∀ a ∈ attempts, a = none := by
  induction attempts with
  | nil => simp [waitCodeServer]
  | cons a rest ih =>
    cases a with
    | none => simpa [waitCodeServer] using ih
    | some code => simp [waitCodeServer]

lemma waitCodeServer_ok_of_response (pre rest : List (Option Nat)) (code : Nat)
    (h : ∀ a ∈ pre, a = none) :
    waitCodeServer (pre ++ some code :: rest) = .ok () := by
  induction pre with
  | nil => simp [waitCodeServer]
  | cons a pre ih =>
    have ha : a = none := h a (by simp)
    subst ha
    simpa [waitCodeServer] using ih (fun x hx => h x (by simp [hx]))

/-- C4: the readiness probe treats any HTTP response, regardless of status
code, as ready; every transport error is retried; the probe fails (with
the timeout error) exactly when the 15-second deadline passes with no
attempt having received a response.  Time is modelled by the finite list
of attempt outcomes that occur before the deadline. -/
theorem claim_C4 :
    (∀ attempts : List (Option Nat),
      waitCodeServer attempts = .error "code-server did not start in time" ↔
        ∀ a ∈ attempts, a = none)
    ∧ (∀ (pre rest : List (Option Nat)) (code : Nat),
        (∀ a ∈ pre, a = none) → waitCodeServer (pre ++ some code :: rest) = .ok ())
    ∧ ctxTimeoutSeconds = 15 ∧ clientTimeoutSeconds = 3 :=
  ⟨waitCodeServer_error_iff, waitCodeServer_ok_of_response, rfl, rfl⟩

/-- C4 witness: at concrete attempt lists, an all-error run times out and a
run whose second attempt answers HTTP 500 is ready. -/
theorem claim_C4_witness :
    waitCodeServer [none, none] = .error "code-server did not start in time"
    ∧ waitCodeServer ([none] ++ some 500 :: []) = .ok () :=
  ⟨(claim_C4.1 [none, none]).mpr (by decide),
   claim_C4.2.1 [none] [] 500 (by decide)⟩

/-! ### Claim C6 — the port allocator -/

lemma randomPortGo_spec (penv : PortEnv) : ∀ (fuel i : Nat),
    (∀ p, randomPortGo penv fuel i = .ok p →
      ∃ j, j < fuel ∧ penv.bindOk (pickPort penv (i + j)) = true ∧
        p = toString (pickPort penv (i + j)))
    ∧ ((∃ msg, randomPortGo penv fuel i = .error msg) ↔
        ∀ j, j < fuel → penv.bindOk (pickPort penv (i + j)) = false)
    ∧ (∀ k, k < fuel → penv.bindOk (pickPort penv (i + k)) = true →
        (∀ j, j < k → penv.bindOk (pickPort penv (i + j)) = false) →
        randomPortGo penv fuel i = .ok (toString (pickPort penv (i + k)))) := by
  intro fuel
  induction fuel with
  | zero =>
    intro i
    refine ⟨?_, ?_, ?_⟩
    · intro p h; simp [randomPortGo] at h
    · simp [randomPortGo]
    · intro k hk; omega
  | succ fuel ih =>
    intro i
    by_cases hb : penv.bindOk (pickPort penv i) = true
    · refine ⟨?_, ?_, ?_⟩
      · intro p h
        simp only [randomPortGo, hb, if_true] at h
        refine ⟨0, Nat.succ_pos _, ?_, ?_⟩
        · simpa using hb
        · simpa using h.symm
      · constructor
        · rintro ⟨msg, h⟩
          simp [randomPortGo, hb] at h
        · intro hall
          have := hall 0 (Nat.succ_pos _)
          rw [Nat.add_zero] at this
          rw [this] at hb
          exact absurd hb (by simp)
      · intro k hk hbk hprev
        cases k with
        | zero => simp [randomPortGo, hb]
        | succ k =>
          have := hprev 0 (Nat.succ_pos _)
          rw [Nat.add_zero] at this
          rw [this] at hb
          exact absurd hb (by simp)
    · have hb' : penv.bindOk (pickPort penv i) = false := by
        simpa using hb
      obtain ⟨ih1, ih2, ih3⟩ := ih (i + 1)
      refine ⟨?_, ?_, ?_⟩
      · intro p h
        simp only [randomPortGo, hb', Bool.false_eq_true, if_false] at h
        obtain ⟨j, hj, hbj, hp⟩ := ih1 p h
        have harith : i + 1 + j = i + (j + 1) := by omega
        rw [harith] at hbj hp
        exact ⟨j + 1, by omega, hbj, hp⟩
      · constructor
        · rintro ⟨msg, h⟩
          simp only [randomPortGo, hb', Bool.false_eq_true, if_false] at h
          intro j hj
          cases j with
          | zero => simpa using hb'
          | succ j =>
            have := ih2.mp ⟨msg, h⟩ j (by omega)
            have harith : i + 1 + j = i + (j + 1) := by omega
            rwa [harith] at this
        · intro hall
          have htail : ∀ j, j < fuel → penv.bindOk (pickPort penv (i + 1 + j)) = false := by
            intro j hj
            have harith : i + 1 + j = i + (j + 1) := by omega
            rw [harith]
            exact hall (j + 1) (by omega)
          obtain ⟨msg, hmsg⟩ := ih2.mpr htail
          exact ⟨msg, by simp only [randomPortGo, hb', Bool.false_eq_true, if_false]; exact hmsg⟩
      · intro k hk hbk hprev
        cases k with
        | zero =>
          rw [Nat.add_zero] at hbk
          rw [hbk] at hb'
          exact absurd hb' (by simp)
        | succ k =>
          have harith : i + (k + 1) = i + 1 + k := by omega
          rw [harith] at hbk
          have hres := ih3 k (by omega) hbk (by
            intro j hj
            have harith2 : i + 1 + j = i + (j + 1) := by omega
            rw [harith2]
            exact hprev (j + 1) (by omega))
          simp only [randomPortGo, hb', Bool.false_eq_true, if_false]
          rw [hres, harith]

lemma pickPort_range (penv : PortEnv) (i : Nat) :
    minPort ≤ pickPort penv i ∧ pickPort penv i ≤ maxPort := by
  unfold pickPort minPort maxPort
  have h : penv.rands i % (65535 - 1024 + 1) < 65535 - 1024 + 1 :=
    Nat.mod_lt _ (by norm_num)
  omega

/-- C6: `randomPort` makes at most 10 tries; every pick is a port in
`[1024, 65535]`; a successful return is such a port whose bind succeeded;
an individual bind failure only triggers the next pick (the first
bindable pick is returned); the error is returned exactly when all 10
picks failed to bind. -/
theorem claim_C6 : ∀ penv : PortEnv,
    (∀ p, randomPort penv = .ok p →
      ∃ n, p = toString n ∧ minPort ≤ n ∧ n ≤ maxPort ∧ penv.bindOk n = true)
    ∧ ((∃ msg, randomPort penv = .error msg) ↔
        ∀ i, i < maxTries → penv.bindOk (pickPort penv i) = false)
    ∧ (∀ k, k < maxTries → penv.bindOk (pickPort penv k) = true →
        (∀ j, j < k → penv.bindOk (pickPort penv j) = false) →
        randomPort penv = .ok (toString (pickPort penv k)))
    ∧ maxTries = 10 ∧ minPort = 1024 ∧ maxPort = 65535 := by
  intro penv
  obtain ⟨h1, h2, h3⟩ := randomPortGo_spec penv maxTries 0
  refine ⟨?_, ?_, ?_, rfl, rfl, rfl⟩
  · intro p hp
    obtain ⟨j, hj, hbj, hpj⟩ := h1 p hp
    rw [Nat.zero_add] at hbj hpj
    exact ⟨pickPort penv j, hpj, (pickPort_range penv j).1, (pickPort_range penv j).2, hbj⟩
  · simpa using h2
  · intro k hk hbk hprev
    have := h3 k hk (by simpa using hbk) (by simpa using hprev)
    simpa using this

/-- C6 witness: with entropy that always picks 976 (port 2000) and binds
that always succeed, the first try returns port 2000; a failing-bind
environment exhausts all tries. -/
theorem claim_C6_witness :
    randomPort ⟨fun _ => 976, fun _ => true⟩ = .ok "2000"
    ∧ (∃ msg, randomPort ⟨fun _ => 976, fun _ => false⟩ = .error msg) := by
  constructor
  · have := (claim_C6 ⟨fun _ => 976, fun _ => true⟩).2.2.1 0 (by decide) rfl
      (fun j hj => absurd hj (by omega))
    simpa using this
  · exact (claim_C6 ⟨fun _ => 976, fun _ => false⟩).2.1.mpr (fun i _ => rfl)

/-! ### Claims C5 and C9 — `parseBindAddr` -/

lemma randomPort_ok_shape (penv : PortEnv) (p : String) (h : randomPort penv = .ok p) :
    ∃ n : Nat, p = toString n := by
  obtain ⟨h1, _, _⟩ := randomPortGo_spec penv maxTries 0
  obtain ⟨j, _, _, hp⟩ := h1 p h
  exact ⟨_, hp⟩

lemma randomPort_ok_ne_empty (penv : PortEnv) (p : String) (h : randomPort penv = .ok p) :
    p ≠ "" := by
  obtain ⟨n, hn⟩ := randomPort_ok_shape penv p h
  rw [hn]
  exact toString_nat_ne_empty n

lemma splitHostPort_empty : splitHostPort "" = .error "missing port in address" := rfl

/-- C5 (amended): for every input that `net.SplitHostPort` accepts,
`parseBindAddr` succeeds — provided `randomPort` succeeds when the port
segment is empty — and the result joins a non-empty host (the loopback
address when the host segment was empty) with a non-empty port (the
allocated one when the port segment was empty); every NON-empty string
that `net.SplitHostPort` rejects is a parse failure.  (The original
claim, quantified over all non-`host:port` strings, fails at the empty
string — see the counterexample.) -/
theorem claim_C5 :
    (∀ (penv : PortEnv) (s h p : String), splitHostPort s = .ok (h, p) →
      ∀ fp, (p = "" → randomPort penv = .ok fp) →
        parseBindAddr penv s =
          .ok (joinHostPort (if h = "" then "127.0.0.1" else h) (if p = "" then fp else p))
        ∧ (if h = "" then "127.0.0.1" else h) ≠ ""
        ∧ (if p = "" then fp else p) ≠ "")
    ∧ (∀ (penv : PortEnv) (s : String), s ≠ "" →
        ∀ e, splitHostPort s = .error e → parseBindAddr penv s = .error e) := by
  constructor
  · intro penv s h p hsplit fp hfp
    have hs : s ≠ "" := by
      intro hse
      rw [hse, splitHostPort_empty] at hsplit
      exact Except.noConfusion hsplit
    refine ⟨?_, ?_, ?_⟩
    · by_cases hp : p = ""
      · simp only [parseBindAddr, if_neg hs, hsplit, if_pos hp, hfp hp]
      · simp only [parseBindAddr, if_neg hs, hsplit, if_neg hp]
    · split <;> simp_all
    · by_cases hp : p = ""
      · rw [if_pos hp]
        exact randomPort_ok_ne_empty penv fp (hfp hp)
      · rw [if_neg hp]
        exact hp
  · intro penv s hs e hsplit
    simp only [parseBindAddr, if_neg hs, hsplit]

/-- C5 counterexample: the empty string is not in `host:port` form
(`net.SplitHostPort` rejects it), yet `parseBindAddr` does not fail: the
code first rewrites it to `":"`.  Environment: entropy always 976 and
binds always succeed, so `randomPort` yields port 2000. -/
theorem claim_C5_counterexample :
    splitHostPort "" = .error "missing port in address"
    ∧ parseBindAddr ⟨fun _ => 976, fun _ => true⟩ "" = .ok "127.0.0.1:2000" :=
  ⟨rfl, rfl⟩

/-- C5 witness: on the well-formed address `"a:8080"` the parse succeeds
with both parts kept, and `"nocolon"` is rejected. -/
theorem claim_C5_witness :
    parseBindAddr ⟨fun _ => 976, fun _ => true⟩ "a:8080" = .ok "a:8080"
    ∧ parseBindAddr ⟨fun _ => 976, fun _ => true⟩ "nocolon" =
        .error "missing port in address" := by
  constructor
  · have h := (claim_C5.1 ⟨fun _ => 976, fun _ => true⟩ "a:8080" "a" "8080" rfl ""
      (fun hc => absurd hc (by decide))).1
    simpa using h
  · exact claim_C5.2 ⟨fun _ => 976, fun _ => true⟩ "nocolon" (by decide) _ rfl

lemma parseBindAddr_empty_ok (penv : PortEnv) (fp : String)
    (hfp : randomPort penv = .ok fp) :
    parseBindAddr penv "" = .ok ("127.0.0.1:" ++ fp) := by
  have h1 : parseBindAddr penv "" =
      (match randomPort penv with
       | .error e => .error e
       | .ok port => .ok (joinHostPort "127.0.0.1" port)) := rfl
  rw [h1, hfp]
  rfl

/-- C9: `parseBindAddr` on the empty string behaves exactly as on `":"`:
it does not fail with a parse error but returns the loopback address
joined with the freshly allocated port, whenever allocation succeeds. -/
theorem claim_C9 : ∀ (penv : PortEnv),
    parseBindAddr penv "" = parseBindAddr penv ":"
    ∧ (∀ fp, randomPort penv = .ok fp →
        parseBindAddr penv "" = .ok ("127.0.0.1:" ++ fp)) := by
  intro penv
  exact ⟨rfl, fun fp hfp => parseBindAddr_empty_ok penv fp hfp⟩

/-- C9 witness: with entropy always 976 and binds succeeding, the empty
bind address resolves to `127.0.0.1:2000`. -/
theorem claim_C9_witness :
    parseBindAddr ⟨fun _ => 976, fun _ => true⟩ "" = .ok ("127.0.0.1:" ++ "2000") :=
  (claim_C9 ⟨fun _ => 976, fun _ => true⟩).2 "2000" rfl

/-! ### Claims C3 and C7 — the GCP host resolver -/

lemma stringMk_data (s : String) : String.mk s.data = s := rfl

lemma getLastD_append_single {α : Type} : ∀ (l : List α) (a d : α),
    (l ++ [a]).getLastD d = a := by
  intro l
  induction l with
  | nil => intro a d; rfl
  | cons x xs ih =>
    intro a d
    rw [List.cons_append, List.getLastD_cons]
    exact ih a x

lemma splitCharAux_sepFree (sep : Char) : ∀ (l acc : List Char),
    (∀ c ∈ l, (c == sep) = false) →
    splitCharAux sep l acc = [acc.reverse ++ l] := by
  intro l
  induction l with
  | nil => intro acc _; simp [splitCharAux]
  | cons c cs ih =>
    intro acc h
    have hc : (c == sep) = false := h c (by simp)
    simp only [splitCharAux, hc, Bool.false_eq_true, if_false]
    rw [ih (c :: acc) (fun x hx => h x (by simp [hx]))]
    simp

lemma splitCharAux_append_sep (sep : Char) : ∀ (l1 rest acc : List Char),
    (∀ c ∈ l1, (c == sep) = false) →
    splitCharAux sep (l1 ++ sep :: rest) acc =
      (acc.reverse ++ l1) :: splitCharAux sep rest [] := by
  intro l1
  induction l1 with
  | nil =>
    intro rest acc _
    simp [splitCharAux]
  | cons c cs ih =>
    intro rest acc h
    have hc : (c == sep) = false := h c (by simp)
    simp only [List.cons_append, splitCharAux, hc, Bool.false_eq_true, if_false,
      List.append_eq]
    rw [ih rest (c :: acc) (fun x hx => h x (by simp [hx]))]
    simp

lemma splitGo_sepFree (s : String) (sep : Char) (h : containsChar s.data sep = false) :
    splitGo s sep = [s] := by
  unfold splitGo
  rw [splitCharAux_sepFree sep s.data [] (by simpa [containsChar, List.any_eq_false] using h)]
  simp [stringMk_data]

lemma splitGo_append_sep (u rest : String) (sep : Char)
    (h : containsChar u.data sep = false) :
    splitGo (u ++ String.mk [sep] ++ rest) sep = u :: splitGo rest sep := by
  unfold splitGo
  have hd : (u ++ String.mk [sep] ++ rest).data = u.data ++ sep :: rest.data := by
    simp [String.data_append]
  rw [hd, splitCharAux_append_sep sep u.data rest.data []
    (by simpa [containsChar, List.any_eq_false] using h)]
  simp [stringMk_data]

lemma gcpExtractIP_two_ats (out u b c : String) (toksInit : List String)
    (htoks : gcpToks out = toksInit ++ [u ++ "@" ++ b ++ "@" ++ c])
    (hu : containsChar u.data '@' = false)
    (hb : containsChar b.data '@' = false) :
    gcpExtractIP out = trimGo b := by
  have hsplit : splitGo (u ++ "@" ++ b ++ "@" ++ c) '@' = u :: b :: splitGo c '@' := by
    have h1 : u ++ "@" ++ b ++ "@" ++ c = u ++ String.mk ['@'] ++ (b ++ String.mk ['@'] ++ c) := by
      apply String.ext
      simp [String.data_append]
    rw [h1, splitGo_append_sep u (b ++ String.mk ['@'] ++ c) '@' hu,
      splitGo_append_sep b c '@' hb]
  simp only [gcpExtractIP, htoks, getLastD_append_single, hsplit]
  simp

lemma gcpExtractIP_no_at (out u : String) (toksInit : List String)
    (htoks : gcpToks out = toksInit ++ [u])
    (hu : containsChar u.data '@' = false) :
    gcpExtractIP out = trimGo u := by
  simp only [gcpExtractIP, htoks, getLastD_append_single, splitGo_sepFree u '@' hu]
  simp

/-- C3 (amended): when the helper output has at least two
space-separated tokens and the extracted address passes IP validation,
`resolve` returns that address and the flag tokens strictly between the
first and the last joined by single spaces; the address is the substring
of the final token between the FIRST and second at signs when the token
contains at signs (NOT after the last at sign, as originally claimed —
see the counterexample), the whole final token when it contains none,
trimmed of surrounding white space in both cases; on the spec example
output the result is address `10.0.0.5` with flags `-i key.pem`. -/
theorem claim_C3 :
    (∀ (out : String) (bytes : List Nat),
        2 ≤ (gcpToks out).length →
        parseIP (gcpExtractIP out) = some bytes →
        parseGCPSSHCmd (.ok out) =
          .ok (gcpExtractIP out, joinGo " " (((gcpToks out).drop 1).dropLast)))
    ∧ (∀ (out u b c : String) (toksInit : List String),
        gcpToks out = toksInit ++ [u ++ "@" ++ b ++ "@" ++ c] →
        containsChar u.data '@' = false →
        containsChar b.data '@' = false →
        gcpExtractIP out = trimGo b)
    ∧ (∀ (out u : String) (toksInit : List String),
        gcpToks out = toksInit ++ [u] →
        containsChar u.data '@' = false →
        gcpExtractIP out = trimGo u)
    ∧ parseGCPSSHCmd (.ok "/usr/bin/ssh -i key.pem user@10.0.0.5") =
        .ok ("10.0.0.5", "-i key.pem") := by
  refine ⟨?_, gcpExtractIP_two_ats, gcpExtractIP_no_at, rfl⟩
  intro out bytes hlen hip
  simp only [parseGCPSSHCmd]
  rw [if_neg (by omega), hip]
  simp

/-- C3 counterexample: on helper output whose final token holds two at
signs, the code returns the field after the FIRST at sign (`10.0.0.5`),
not the substring after the last at sign (`10.0.0.6`) that the claim
demands. -/
theorem claim_C3_counterexample :
    parseGCPSSHCmd (.ok "/usr/bin/ssh -i key.pem user@10.0.0.5@10.0.0.6") =
      .ok ("10.0.0.5", "-i key.pem")
    ∧ specAddrAfterLastAt "/usr/bin/ssh -i key.pem user@10.0.0.5@10.0.0.6" = "10.0.0.6"
    ∧ ("10.0.0.5" : String) ≠ "10.0.0.6" :=
  ⟨rfl, rfl, by decide⟩

/-- C3 witness: the amended extraction rule evaluated at a concrete
two-at-sign token and at the spec example. -/
theorem claim_C3_witness :
    gcpExtractIP "ssh -q user@10.0.0.5@zone" = trimGo "10.0.0.5"
    ∧ parseGCPSSHCmd (.ok "/usr/bin/ssh -i key.pem user@10.0.0.5") =
        .ok ("10.0.0.5", "-i key.pem") :=
  ⟨claim_C3.2.1 "ssh -q user@10.0.0.5@zone" "user" "10.0.0.5" "zone" ["ssh", "-q"]
      rfl rfl rfl,
   claim_C3.2.2.2⟩

/-- C7: resolution of a cloud-prefixed specifier fails exactly when the
helper command errors, or its output splits into fewer than two
space-separated tokens, or the extracted address fails IP validation; it
succeeds in every other case; one-token output always fails. -/
theorem claim_C7 :
    (∀ e : String, parseGCPSSHCmd (.error e) = .error e)
    ∧ (∀ out : String, (gcpToks out).length < 2 →
        parseGCPSSHCmd (.ok out) =
          .error ("unexpected output for gcloud command: " ++ out))
    ∧ (∀ out : String, 2 ≤ (gcpToks out).length →
        parseIP (gcpExtractIP out) = none →
        parseGCPSSHCmd (.ok out) =
          .error ("parsed invalid ip address " ++ gcpExtractIP out))
    ∧ (∀ (out : String) (bytes : List Nat), 2 ≤ (gcpToks out).length →
        parseIP (gcpExtractIP out) = some bytes →
        ∃ ip flags, parseGCPSSHCmd (.ok out) = .ok (ip, flags))
    ∧ (∀ out : String, (gcpToks out).length = 1 →
        ∃ msg, parseGCPSSHCmd (.ok out) = .error msg) := by
  refine ⟨fun e => rfl, ?_, ?_, ?_, ?_⟩
  · intro out hlen
    simp only [parseGCPSSHCmd]
    rw [if_pos hlen]
  · intro out hlen hip
    simp only [parseGCPSSHCmd]
    rw [if_neg (by omega), if_pos (by simp [hip])]
  · intro out bytes hlen hip
    refine ⟨gcpExtractIP out, joinGo " " (((gcpToks out).drop 1).dropLast), ?_⟩
    simp only [parseGCPSSHCmd]
    rw [if_neg (by omega), hip]
    simp
  · intro out hlen
    refine ⟨"unexpected output for gcloud command: " ++ out, ?_⟩
    simp only [parseGCPSSHCmd]
    rw [if_pos (by omega)]

/-- C7 witness: a one-token helper output fails; a well-formed two-token
output with a valid address succeeds. -/
theorem claim_C7_witness :
    (∃ msg, parseGCPSSHCmd (.ok "latest-linux") = .error msg)
    ∧ (∃ ip flags, parseGCPSSHCmd (.ok "/usr/bin/ssh user@10.0.0.5") = .ok (ip, flags)) :=
  ⟨claim_C7.2.2.2.2 "latest-linux" rfl,
   claim_C7.2.2.2.1 "/usr/bin/ssh user@10.0.0.5" [10, 0, 0, 5] (by decide) rfl⟩

/-! ### Claim C8 — the sync transport invocation shape -/

/-- C8: every transport invocation is the exclusion flags followed by
`-azvr`, `-e` with the ssh connector and flags, `-u`, `--times`,
`--delete`, `--copy-unsafe-links`, then source then destination; the
settings spec passes exactly the exclusions `workspaceStorage`, `logs`,
`CachedData` and the extensions spec passes none; whichever of
source/destination is the remote side has the `host:path` form (it
contains a colon), and the other side — when the local directory itself
is colon-free — has none and ends in a path separator. -/
theorem claim_C8 :
    (∀ (src dest sshFlags : String) (excl : List String),
      rsyncArgs src dest sshFlags excl =
        excl.map (fun p => "--exclude=" ++ p) ++
          ["-azvr", "-e", "ssh " ++ sshFlags, "-u", "--times", "--delete",
           "--copy-unsafe-links"] ++ [src, dest])
    ∧ (∀ (l f h : String) (back : Bool),
        syncUserSettingsArgs l f h back =
          rsyncArgs (settingsSrcDest l h back).1 (settingsSrcDest l h back).2 f
            ["workspaceStorage", "logs", "CachedData"])
    ∧ (∀ (l f h : String) (back : Bool),
        syncExtensionsArgs l f h back =
          rsyncArgs (extensionsSrcDest l h back).1 (extensionsSrcDest l h back).2 f [])
    ∧ (∀ l h : String,
        settingsSrcDest l h false = (l ++ "/", h ++ ":" ++ remoteSettingsDir)
        ∧ settingsSrcDest l h true = (h ++ ":" ++ remoteSettingsDir, l ++ "/")
        ∧ extensionsSrcDest l h false = (l ++ "/", h ++ ":" ++ remoteExtensionsDir)
        ∧ extensionsSrcDest l h true = (h ++ ":" ++ remoteExtensionsDir, l ++ "/"))
    ∧ (∀ h r : String, hasColon (h ++ ":" ++ r) = true)
    ∧ (∀ l : String, hasColon l = false → hasColon (l ++ "/") = false)
    ∧ (∀ l : String, endsWithSep (l ++ "/") = true) := by
  refine ⟨?_, ?_, ?_, ?_, ?_, ?_, ?_⟩
  · intro src dest sshFlags excl
    simp [rsyncArgs]
  · intro l f h back
    rfl
  · intro l f h back
    rfl
  · intro l h
    exact ⟨rfl, rfl, rfl, rfl⟩
  · intro h r
    simp [hasColon, containsChar, String.data_append]
  · intro l hl
    simp only [hasColon, containsChar, String.data_append] at hl ⊢
    simp [List.any_append, hl]
  · intro l
    simp [endsWithSep, String.data_append, getLastD_append_single]

/-- C8 witness: the settings push invocation for a concrete host, flag
string and local directory, fully evaluated, plus the colon/separator
facts at those concrete values. -/
theorem claim_C8_witness :
    syncUserSettingsArgs "/home/u/.config/Code/User" "-p 22" "myhost" false =
      rsyncArgs "/home/u/.config/Code/User/" ("myhost:" ++ remoteSettingsDir) "-p 22"
        ["workspaceStorage", "logs", "CachedData"]
    ∧ hasColon ("myhost" ++ ":" ++ remoteSettingsDir) = true
    ∧ hasColon ("/home/u/.config/Code/User" ++ "/") = false
    ∧ endsWithSep ("/home/u/.config/Code/User" ++ "/") = true := by
  refine ⟨?_, ?_, ?_, ?_⟩
  · have h := claim_C8.2.1 "/home/u/.config/Code/User" "-p 22" "myhost" false
    simpa using h
  · exact claim_C8.2.2.2.2.1 "myhost" remoteSettingsDir
  · exact claim_C8.2.2.2.2.2.1 "/home/u/.config/Code/User" (by decide)
  · exact claim_C8.2.2.2.2.2.2 "/home/u/.config/Code/User"

/-! ### Claims C1, C2, C10 — the session controller -/

lemma sshCode_stages (env : SSHEnv) (host dir : String) (o : options)
    (h1 ex ba rp : String)
    (hH : parseHost env.gcloud host = .ok (h1, ex))
    (hB : parseBindAddr env.bindPorts o.bindAddr = .ok ba)
    (hR : (if o.remotePort = "" then randomPort env.remotePorts
           else Except.ok o.remotePort) = .ok rp)
    (hBoot : env.bootstrapErr = none) :
    ∃ flags, sshCode env host dir o =
      seqE (.ok (), [.bootstrap])
        (seqE (syncInPhase env { o with sshFlags := flags, bindAddr := ba, remotePort := rp })
              (runPhase env { o with sshFlags := flags, bindAddr := ba, remotePort := rp })) := by
  obtain ⟨sk, sb, no, bnd, rport, fl⟩ := o
  refine ⟨if ex ≠ "" then joinGo " " [ex, fl] else fl, ?_⟩
  simp only [sshCode, hH, hB, hR, hBoot]

/-- C1: whenever sync is enabled and the session reaches the sync-in
stage, it runs the settings sync then the extensions sync, in that order,
in the push direction (`back = false`), and the first of the two to fail
makes the whole session return that error with no further stage run; in
every session that reaches sync-back, it runs the extensions sync then
the settings sync, in that order, in the pull direction (`back = true`),
and either failing makes the session return an error before completing. -/
theorem claim_C1 (env : SSHEnv) (host dir : String) (o : options)
    (h1 ex ba rp : String)
    (hH : parseHost env.gcloud host = .ok (h1, ex))
    (hB : parseBindAddr env.bindPorts o.bindAddr = .ok ba)
    (hR : (if o.remotePort = "" then randomPort env.remotePorts
           else Except.ok o.remotePort) = .ok rp)
    (hBoot : env.bootstrapErr = none)
    (hSkip : o.skipSync = false) :
    (∀ e, env.settingsSync false = some e →
      sshCode env host dir o =
        (.error ("failed to sync settings: " ++ e), [.bootstrap, .syncSettings false]))
    ∧ (∀ e, env.settingsSync false = none → env.extSync false = some e →
        sshCode env host dir o =
          (.error ("failed to sync extensions: " ++ e),
           [.bootstrap, .syncSettings false, .syncExtensions false]))
    ∧ (env.settingsSync false = none → env.extSync false = none →
       env.tunnelStartErr = none → waitCodeServer env.probeAttempts = .ok () →
       o.syncBack = true →
       let pre : List Event :=
         [.bootstrap, .syncSettings false, .syncExtensions false, .tunnelStart, .probe] ++
           (if o.noOpen then []
            else [Event.openedBrowser (openBrowser env.browser ("http://" ++ ba))]) ++
           [Event.running env.sig]
       (∀ e, env.extSync true = some e →
          sshCode env host dir o =
            (.error ("failed to sync extensions back: " ++ e), pre ++ [.syncExtensions true]))
       ∧ (∀ e, env.extSync true = none → env.settingsSync true = some e →
            sshCode env host dir o =
              (.error ("failed to sync user settings settings back: " ++ e),
               pre ++ [.syncExtensions true, .syncSettings true]))
       ∧ (env.extSync true = none → env.settingsSync true = none →
            sshCode env host dir o =
              (.ok (), pre ++ [.syncExtensions true, .syncSettings true]))) := by
  obtain ⟨flags, hst⟩ := sshCode_stages env host dir o h1 ex ba rp hH hB hR hBoot
  refine ⟨?_, ?_, ?_⟩
  · intro e he
    rw [hst]
    simp [syncInPhase, seqE, hSkip, he]
  · intro e hs he
    rw [hst]
    simp [syncInPhase, seqE, hSkip, hs, he]
  · intro hs he ht hp hsb
    refine ⟨?_, ?_, ?_⟩
    · intro e hpe
      rw [hst]
      simp [syncInPhase, runPhase, syncBackPhase, seqE, hSkip, hs, he, ht, hp, hsb, hpe]
    · intro e hpe hps
      rw [hst]
      simp [syncInPhase, runPhase, syncBackPhase, seqE, hSkip, hs, he, ht, hp, hsb, hpe, hps]
    · intro hpe hps
      rw [hst]
      simp [syncInPhase, runPhase, syncBackPhase, seqE, hSkip, hs, he, ht, hp, hsb, hpe, hps]

/-- C1 witness: a fully successful session with sync enabled and
sync-back requested produces exactly the push-settings, push-extensions,
tunnel, probe, run, pull-extensions, pull-settings order. -/
theorem claim_C1_witness :
    sshCode envW "myhost" "d" oW =
      (.ok (), [.bootstrap, .syncSettings false, .syncExtensions false, .tunnelStart,
                .probe, .running .tunnelEnded, .syncExtensions true, .syncSettings true]) := by
  have h := (claim_C1 envW "myhost" "d" oW "myhost" "" "127.0.0.1:8080" "9999"
    rfl rfl rfl rfl rfl).2.2 rfl rfl rfl rfl rfl
  simpa [oW, envW] using h.2.2 rfl rfl

lemma runPhase_filter_skip (env : SSHEnv) (o : options) (h : o.skipSync = true) :
    List.filter isSyncEvent (runPhase env o).2 = [] := by
  simp only [runPhase]
  rcases ht : env.tunnelStartErr with _ | e
  · rcases hw : waitCodeServer env.probeAttempts with e | u
    · simp [isSyncEvent]
    · have hb : syncBackPhase env o = (.ok (), []) := by simp [syncBackPhase, h]
      by_cases hno : o.noOpen <;> simp [seqE, hb, isSyncEvent, hno]
  · simp [isSyncEvent]

/-- With sync globally disabled, no branch of the session ever records a
sync event. -/
lemma sshCode_skip_filter (env : SSHEnv) (host dir : String) (o : options)
    (hskip : o.skipSync = true) :
    List.filter isSyncEvent (sshCode env host dir o).2 = [] := by
  obtain ⟨sk, sb, no, bnd, rport, fl⟩ := o
  have hsk : sk = true := hskip
  subst hsk
  simp only [sshCode]
  rcases hph : parseHost env.gcloud host with e | hp
  · simp
  · obtain ⟨hh, ex⟩ := hp
    simp only []
    rcases hpb : parseBindAddr env.bindPorts bnd with e | ba
    · simp
    · simp only []
      rcases hrp : (if rport = "" then randomPort env.remotePorts
                    else Except.ok rport) with e | rp
      · simp
      · simp only []
        rcases hbe : env.bootstrapErr with _ | e
        · simp only [seqE, syncInPhase, if_pos rfl]
          simpa [isSyncEvent] using
            runPhase_filter_skip env ⟨true, sb, no, ba, rp,
              if ex ≠ "" then joinGo " " [ex, fl] else fl⟩ rfl
        · simp [isSyncEvent]

/-- C2: with `skipSync` set, no sync call (push or pull) is ever made in
any session; and in a session that completes the `Running` state, a
pull-direction sync call is made if and only if sync-back was requested
and sync was not globally disabled. -/
theorem claim_C2 (env : SSHEnv) (host dir : String) (o : options) :
    (o.skipSync = true → List.filter isSyncEvent (sshCode env host dir o).2 = [])
    ∧ (∀ h1 ex ba rp,
        parseHost env.gcloud host = .ok (h1, ex) →
        parseBindAddr env.bindPorts o.bindAddr = .ok ba →
        (if o.remotePort = "" then randomPort env.remotePorts
         else Except.ok o.remotePort) = .ok rp →
        env.bootstrapErr = none →
        (o.skipSync = false → env.settingsSync false = none ∧ env.extSync false = none) →
        env.tunnelStartErr = none →
        waitCodeServer env.probeAttempts = .ok () →
        ((Event.syncExtensions true ∈ (sshCode env host dir o).2 ∨
          Event.syncSettings true ∈ (sshCode env host dir o).2) ↔
          (o.syncBack = true ∧ o.skipSync = false))) := by
  constructor
  · exact fun h => sshCode_skip_filter env host dir o h
  · intro h1 ex ba rp hH hB hR hBoot hSync hT hP
    obtain ⟨flags, hst⟩ := sshCode_stages env host dir o h1 ex ba rp hH hB hR hBoot
    rcases hsk : o.skipSync with _ | _
    · obtain ⟨hs, he⟩ := hSync hsk
      rw [hst]
      rcases hsb : o.syncBack with _ | _
      · by_cases hno : o.noOpen <;>
          simp [syncInPhase, runPhase, syncBackPhase, seqE, hsk, hsb, hs, he, hT, hP, hno]
      · rcases hpe : env.extSync true with _ | e
        · rcases hps : env.settingsSync true with _ | e <;>
            by_cases hno : o.noOpen <;>
              simp [syncInPhase, runPhase, syncBackPhase, seqE, hsk, hsb, hs, he, hT, hP,
                hpe, hps, hno]
        · by_cases hno : o.noOpen <;>
            simp [syncInPhase, runPhase, syncBackPhase, seqE, hsk, hsb, hs, he, hT, hP,
              hpe, hno]
    · have hfil := sshCode_skip_filter env host dir o hsk
      constructor
      · intro hmem
        exfalso
        rcases hmem with hmem | hmem
        · have : Event.syncExtensions true ∈ List.filter isSyncEvent (sshCode env host dir o).2 :=
            List.mem_filter.mpr ⟨hmem, rfl⟩
          rw [hfil] at this
          exact absurd this (List.not_mem_nil _)
        · have : Event.syncSettings true ∈ List.filter isSyncEvent (sshCode env host dir o).2 :=
            List.mem_filter.mpr ⟨hmem, rfl⟩
          rw [hfil] at this
          exact absurd this (List.not_mem_nil _)
      · rintro ⟨_, hcontra⟩
        exact absurd hcontra (by simp [hsk])

/-- C2 witness: with sync skipped the concrete session records no sync
event even though sync-back was requested; with sync enabled and
sync-back requested the concrete session records a pull call. -/
theorem claim_C2_witness :
    List.filter isSyncEvent (sshCode envW "myhost" "d" { oW with skipSync := true }).2 = []
    ∧ (Event.syncExtensions true ∈ (sshCode envW "myhost" "d" oW).2 ∨
       Event.syncSettings true ∈ (sshCode envW "myhost" "d" oW).2) :=
  ⟨(claim_C2 envW "myhost" "d" { oW with skipSync := true }).1 rfl,
   ((claim_C2 envW "myhost" "d" oW).2 "myhost" "" "127.0.0.1:8080" "9999"
      rfl rfl rfl rfl (fun _ => ⟨rfl, rfl⟩) rfl rfl).mpr ⟨rfl, rfl⟩⟩

lemma runPhase_browser (g : Except String String) (bp rp2 : PortEnv) (be : Option String)
    (ss es : Bool → Option String) (ts : Option String) (pa : List (Option Nat))
    (br b2 : BrowserEnv) (sg : Sig) (o : options) :
    (runPhase ⟨g, bp, rp2, be, ss, es, ts, pa, b2, sg⟩ o).1 =
      (runPhase ⟨g, bp, rp2, be, ss, es, ts, pa, br, sg⟩ o).1
    ∧ (runPhase ⟨g, bp, rp2, be, ss, es, ts, pa, b2, sg⟩ o).2.map scrubEv =
      (runPhase ⟨g, bp, rp2, be, ss, es, ts, pa, br, sg⟩ o).2.map scrubEv := by
  rcases ts with _ | e
  · simp only [runPhase]
    rcases hw : waitCodeServer pa with e | u
    · simp
    · have hsb : syncBackPhase ⟨g, bp, rp2, be, ss, es, none, pa, b2, sg⟩ o =
          syncBackPhase ⟨g, bp, rp2, be, ss, es, none, pa, br, sg⟩ o := rfl
      rw [hsb]
      by_cases hno : o.noOpen <;> simp [seqE, scrubEv, hno]
  · simp [runPhase]

lemma sshCode_browser_inv (env : SSHEnv) (b2 : BrowserEnv) (host dir : String)
    (o : options) :
    (sshCode { env with browser := b2 } host dir o).1 = (sshCode env host dir o).1
    ∧ (sshCode { env with browser := b2 } host dir o).2.map scrubEv =
        (sshCode env host dir o).2.map scrubEv := by
  obtain ⟨g, bp, rp2, be, ss, es, ts, pa, br, sg⟩ := env
  simp only [sshCode]
  rcases hph : parseHost g host with e | hp
  · simp [hph]
  · obtain ⟨hh, ex⟩ := hp
    simp only [hph]
    rcases hpb : parseBindAddr bp o.bindAddr with e | ba
    · simp [hpb]
    · simp only [hpb]
      rcases hrp : (if o.remotePort = "" then randomPort rp2
                    else Except.ok o.remotePort) with e | rp
      · simp [hrp]
      · simp only [hrp]
        rcases be with _ | e
        · have hsi : syncInPhase ⟨g, bp, rp2, none, ss, es, ts, pa, b2, sg⟩ =
              syncInPhase ⟨g, bp, rp2, none, ss, es, ts, pa, br, sg⟩ := rfl
          rw [hsi]
          obtain ⟨hr1, hr2⟩ := runPhase_browser g bp rp2 none ss es ts pa br b2 sg
            { o with
              sshFlags := if ex ≠ "" then joinGo " " [ex, o.sshFlags] else o.sshFlags,
              bindAddr := ba, remotePort := rp }
          rcases hSI : syncInPhase ⟨g, bp, rp2, none, ss, es, ts, pa, br, sg⟩
              { o with
                sshFlags := if ex ≠ "" then joinGo " " [ex, o.sshFlags] else o.sshFlags,
                bindAddr := ba, remotePort := rp } with ⟨r, evs⟩
          rcases r with e | u
          · simp [seqE, hSI]
          · simp only [seqE, hSI]
            refine ⟨hr1, ?_⟩
            simp only [List.map_append, hr2]
        · simp

lemma sshCode_reaches_running (env : SSHEnv) (host dir : String) (o : options)
    (h1 ex ba rp : String)
    (hH : parseHost env.gcloud host = .ok (h1, ex))
    (hB : parseBindAddr env.bindPorts o.bindAddr = .ok ba)
    (hR : (if o.remotePort = "" then randomPort env.remotePorts
           else Except.ok o.remotePort) = .ok rp)
    (hBoot : env.bootstrapErr = none)
    (hSync : o.skipSync = false → env.settingsSync false = none ∧ env.extSync false = none)
    (hT : env.tunnelStartErr = none)
    (hP : waitCodeServer env.probeAttempts = .ok ()) :
    Event.running env.sig ∈ (sshCode env host dir o).2 := by
  obtain ⟨flags, hst⟩ := sshCode_stages env host dir o h1 ex ba rp hH hB hR hBoot
  rw [hst]
  rcases hsk : o.skipSync with _ | _
  · obtain ⟨hs, he⟩ := hSync hsk
    rcases hpe : env.extSync true with _ | e <;>
      rcases hps : env.settingsSync true with _ | e <;>
        rcases hsb : o.syncBack with _ | _ <;>
          by_cases hno : o.noOpen <;>
            simp [syncInPhase, runPhase, syncBackPhase, seqE, hsk, hs, he, hT, hP,
              hpe, hps, hsb, hno]
  · rcases hpe : env.extSync true with _ | e <;>
      rcases hps : env.settingsSync true with _ | e <;>
        by_cases hno : o.noOpen <;>
          simp [syncInPhase, runPhase, syncBackPhase, seqE, hsk, hT, hP, hpe, hps, hno]

/-- C10: a failure to open the local browser never fails the session —
the session result and every non-browser-log part of the trace are
independent of the browser environment; a launch-command start error and
an `OpenURL` error are only turned into log lines by `openBrowser`
(whose return carries no error, matching the Go function returning
nothing); and the session proceeds to the `Running` state regardless of
the browser environment whenever the stages before it succeed. -/
theorem claim_C10 :
    (∀ (env : SSHEnv) (b2 : BrowserEnv) (host dir : String) (o : options),
      (sshCode { env with browser := b2 } host dir o).1 = (sshCode env host dir o).1
      ∧ (sshCode { env with browser := b2 } host dir o).2.map scrubEv =
          (sshCode env host dir o).2.map scrubEv)
    ∧ (∀ (b : BrowserEnv) (u e : String), selectBrowserCmd b u ≠ none →
        b.startErr = some e → openBrowser b u = ["failed to open browser: " ++ e])
    ∧ (∀ (b : BrowserEnv) (u e : String), selectBrowserCmd b u = none →
        b.openURLErr = some e → openBrowser b u = ["failed to open browser: " ++ e])
    ∧ (∀ (env : SSHEnv) (host dir : String) (o : options) (h1 ex ba rp : String),
        parseHost env.gcloud host = .ok (h1, ex) →
        parseBindAddr env.bindPorts o.bindAddr = .ok ba →
        (if o.remotePort = "" then randomPort env.remotePorts
         else Except.ok o.remotePort) = .ok rp →
        env.bootstrapErr = none →
        (o.skipSync = false → env.settingsSync false = none ∧ env.extSync false = none) →
        env.tunnelStartErr = none →
        waitCodeServer env.probeAttempts = .ok () →
        Event.running env.sig ∈ (sshCode env host dir o).2) := by
  refine ⟨sshCode_browser_inv, ?_, ?_, ?_⟩
  · intro b u e hsel hstart
    rcases hcmd : selectBrowserCmd b u with _ | cmd
    · exact absurd hcmd hsel
    · simp [openBrowser, hcmd, hstart]
  · intro b u e hsel hurl
    simp [openBrowser, hsel, hurl]
  · intro env host dir o h1 ex ba rp hH hB hR hBoot hSync hT hP
    exact sshCode_reaches_running env host dir o h1 ex ba rp hH hB hR hBoot hSync hT hP

/-- C10 witness: at the concrete successful session (browser not
suppressed) a browser whose launch command fails to start changes
neither the result nor the scrubbed trace, the failure is only logged,
and the session still records the `Running` state. -/
theorem claim_C10_witness :
    (sshCode { envW with browser := benvFail } "myhost" "d" { oW with noOpen := false }).1 =
      (sshCode envW "myhost" "d" { oW with noOpen := false }).1
    ∧ openBrowser benvFail "http://127.0.0.1:8080" = ["failed to open browser: " ++ "boom"]
    ∧ Event.running Sig.tunnelEnded ∈
        (sshCode { envW with browser := benvFail } "myhost" "d" { oW with noOpen := false }).2 :=
  ⟨(claim_C10.1 envW benvFail "myhost" "d" { oW with noOpen := false }).1,
   claim_C10.2.1 benvFail "http://127.0.0.1:8080" "boom"
     (by simp [selectBrowserCmd, benvFail]) rfl,
   claim_C10.2.2.2 { envW with browser := benvFail } "myhost" "d" { oW with noOpen := false }
     "myhost" "" "127.0.0.1:8080" "9999" rfl rfl rfl rfl (fun _ => ⟨rfl, rfl⟩) rfl rfl⟩

end Sshcode
